import Mathlib

/-!
Shallow embedding of `src/pahserver/src/bin/pahserver/client.rs`
(`handle_connect_client` and the data it manipulates).

Modelling choices, each noted at the definition it concerns:
* `f64` values (the submission `priority` and the derived `energy_add`) are
  modelled as `ℚ`; the code performs a single exact division `N / priority`.
* The read port is a finite stream of `read_compressed` outcomes:
  `some bytes` for a successful read, `none` for a channel/decompression
  failure; an exhausted stream also reads as a failure.
* `String::from_utf8` is modelled by an executable UTF-8 validator
  (`validUtf8`) over byte lists, following Rust strings being UTF-8 bytes.
* The two protocol-half loop bodies (`client_read`, `client_write`) are
  `TODO` stubs in the source that return `Ok(())`; their outcomes are taken
  as parameters (`rRead`, `rWrite`) so that the handler's error/cleanup
  structure can be examined for every outcome they could have.  Likewise the
  single acknowledgment write's outcome is the parameter `ackResult`.
* The `HashMap<u64, Permuter>` registry is modelled extensionally as a
  function `Nat → Option Permuter`; `u64` counters are modelled as `Nat`
  (the counter only ever increments by one per registered permuter).
* The handler additionally returns ghost observations used only by the
  specification: the list of identifiers it registered, the registry state
  right after its registration step, and an event trace recording each
  compressed-block read, the acknowledgment write, and the two bulk
  registry mutations, in execution order.
-/

namespace PahServer

/-- Per-permuter submission payload: `source` (a Rust `String`, kept as its
UTF-8 bytes) and `target_o_bin` (raw artifact bytes). -/
structure PermuterData where
  source : List Nat
  target_o_bin : List Nat
deriving Repr, DecidableEq

/-- The client's initial submission: the list of permuter placeholders
(whose `source`/`target_o_bin` are overwritten by the submission-phase
reads) and the shared batch priority (`f64` modelled as `ℚ`). -/
structure ConnectClientData where
  permuters : List PermuterData
  priority : ℚ
deriving Repr, DecidableEq

/-- One registered permuter, mirroring the `Permuter` struct literal built in
`handle_connect_client` (queue elements are abstracted as `Nat`). -/
structure Permuter where
  data : PermuterData
  work_queue : List Nat
  result_queue : List Nat
  stale : Bool
  priority : ℚ
  energy_add : ℚ
deriving Repr, DecidableEq

/-- The lock-guarded mutable server state `state.m`: the identifier counter
and the permuter registry (a `HashMap` modelled extensionally). -/
structure MutState where
  next_permuter_id : Nat
  permuters : Nat → Option Permuter

/-- Errors the handler can surface: a channel read / decompression failure,
a UTF-8 decoding failure, or an abstract error from a protocol half. -/
inductive Err where
  | channel : Err
  | utf8 : Err
  | proto : Nat → Err
deriving Repr, DecidableEq

/-- Observable events of one handler run, in execution order. -/
inductive Event where
  | readBlock : Event
  | writeAck : Event
  | register : List Nat → Event
  | deregister : List Nat → Event
deriving Repr, DecidableEq

/-- Is a UTF-8 continuation byte (`0x80..=0xBF`). -/
def contByte (b : Nat) : Bool := 0x80 ≤ b && b ≤ 0xBF

/-- Executable UTF-8 validity check over a byte list, following the
validation performed by Rust's `String::from_utf8` (rejecting overlong
encodings, surrogates and values above `U+10FFFF`). -/
def validUtf8 : List Nat → Bool
  | [] => true
  | b :: rest =>
    if b ≤ 0x7F then validUtf8 rest
    else if 0xC2 ≤ b && b ≤ 0xDF then
      match rest with
      | [] => false
      | b1 :: t => contByte b1 && validUtf8 t
    else if 0xE0 ≤ b && b ≤ 0xEF then
      match rest with
      | b1 :: b2 :: t =>
        (if b = 0xE0 then decide (0xA0 ≤ b1) && decide (b1 ≤ 0xBF)
         else if b = 0xED then decide (0x80 ≤ b1) && decide (b1 ≤ 0x9F)
         else contByte b1) && contByte b2 && validUtf8 t
      | _ => false
    else if 0xF0 ≤ b && b ≤ 0xF4 then
      match rest with
      | b1 :: b2 :: b3 :: t =>
        (if b = 0xF0 then decide (0x90 ≤ b1) && decide (b1 ≤ 0xBF)
         else if b = 0xF4 then decide (0x80 ≤ b1) && decide (b1 ≤ 0x8F)
         else contByte b1) && contByte b2 && contByte b3 && validUtf8 t
      | _ => false
    else false

/-- `HashMap::insert` on the extensional registry map. -/
def mapInsert (k : Nat) (v : Permuter) (m : Nat → Option Permuter) :
    Nat → Option Permuter :=
  fun k1 => if k1 = k then some v else m k1

/-- `HashMap::remove` on the extensional registry map. -/
def mapRemove (k : Nat) (m : Nat → Option Permuter) :
    Nat → Option Permuter :=
  fun k1 => if k1 = k then none else m k1

/-- The submission-phase loop of `handle_connect_client`: for each
placeholder, two `read_compressed` calls in order — the first decoded as
UTF-8 into `source`, the second stored raw into `target_o_bin`.  A `?`
failure (channel/decompression, or invalid UTF-8) aborts immediately.
Returns the filled permuter list (or the first error), the unconsumed rest
of the read stream, and one `readBlock` event per `read_compressed` call. -/
def fillLoop : List PermuterData → List (Option (List Nat)) →
    Except Err (List PermuterData) × List (Option (List Nat)) × List Event
  | [], reads => (Except.ok [], reads, [])
  | _ :: _, [] => (Except.error Err.channel, [], [Event.readBlock])
  | _ :: _, none :: reads1 => (Except.error Err.channel, reads1, [Event.readBlock])
  | pd :: rest, some src :: reads1 =>
    if validUtf8 src then
      match reads1 with
      | [] => (Except.error Err.channel, [], [Event.readBlock, Event.readBlock])
      | none :: reads2 =>
        (Except.error Err.channel, reads2, [Event.readBlock, Event.readBlock])
      | some tgt :: reads2 =>
        match fillLoop rest reads2 with
        | (Except.error e, reads3, tr) =>
          (Except.error e, reads3, Event.readBlock :: Event.readBlock :: tr)
        | (Except.ok filled, reads3, tr) =>
          (Except.ok ({ pd with source := src, target_o_bin := tgt } :: filled),
           reads3, Event.readBlock :: Event.readBlock :: tr)
    else (Except.error Err.utf8, reads1, [Event.readBlock])

/-- The registration loop: for each filled permuter, take a fresh identifier
from `next_permuter_id`, advance the counter, and insert a `Permuter` with
empty queues, `stale = false`, the batch priority and the precomputed
`energy_add`.  Returns the issued identifiers (`perm_ids`) in order and the
updated state. -/
def registerLoop : List PermuterData → ℚ → ℚ → MutState → List Nat × MutState
  | [], _, _, st => ([], st)
  | pd :: rest, pr, ea, st =>
    let id := st.next_permuter_id
    let st1 : MutState :=
      ⟨id + 1, mapInsert id ⟨pd, [], [], false, pr, ea⟩ st.permuters⟩
    let r := registerLoop rest pr ea st1
    (id :: r.1, r.2)

/-- The cleanup loop: remove each registered identifier from the registry. -/
def removeBatch : List Nat → MutState → MutState
  | [], st => st
  | id :: ids, st => removeBatch ids ⟨st.next_permuter_id, mapRemove id st.permuters⟩

/-- `tokio::try_join!` on the two protocol halves' outcomes: `Ok` when both
succeed, otherwise an error from a failing half. -/
def tryJoin (r1 r2 : Except Err Unit) : Except Err Unit :=
  match r1 with
  | Except.error e => Except.error e
  | Except.ok _ => r2

/-- Everything observable about one `handle_connect_client` run: its return
value, the final shared state, and ghost observations — the identifiers it
registered (`[]` when registration was never reached), the state right
after the registration step (`none` when never reached), and the event
trace. -/
structure HandlerOutcome where
  result : Except Err Unit
  state : MutState
  perm_ids : List Nat
  regState : Option MutState
  trace : List Event

/-- `handle_connect_client`: submission-phase reads, acknowledgment write,
`energy_add = N / priority`, locked bulk registration, concurrent protocol
halves joined by `try_join!`, locked bulk removal, then `r?`. -/
def handle_connect_client (data : ConnectClientData)
    (reads : List (Option (List Nat)))
    (ackResult rRead rWrite : Except Err Unit)
    (st : MutState) : HandlerOutcome :=
  match fillLoop data.permuters reads with
  | (Except.error e, _, tr) => ⟨Except.error e, st, [], none, tr⟩
  | (Except.ok filled, _, tr) =>
    match ackResult with
    | Except.error e => ⟨Except.error e, st, [], none, tr⟩
    | Except.ok _ =>
      let energy_add := (data.permuters.length : ℚ) / data.priority
      let pr := registerLoop filled data.priority energy_add st
      let r := tryJoin rRead rWrite
      ⟨r, removeBatch pr.1 pr.2, pr.1, some pr.2,
        tr ++ [Event.writeAck, Event.register pr.1, Event.deregister pr.1]⟩

/-- Input of one client connection, for sequencing several connections. -/
structure ConnInput where
  data : ConnectClientData
  reads : List (Option (List Nat))
  ackResult : Except Err Unit
  rRead : Except Err Unit
  rWrite : Except Err Unit

/-- Run a sequence of client connections one after another against the
shared state, collecting every identifier issued, in issue order. -/
def runSeq : MutState → List ConnInput → List Nat × MutState
  | st, [] => ([], st)
  | st, c :: cs =>
    let out := handle_connect_client c.data c.reads c.ackResult c.rRead c.rWrite st
    let r := runSeq out.state cs
    (out.perm_ids ++ r.1, r.2)

/-- The consecutive identifiers `[c, c+1, ..., c+n-1]`. -/
def idsFrom : Nat → Nat → List Nat
  | _, 0 => []
  | c, n + 1 => c :: idsFrom (c + 1) n

/-- Read stream holding, for each pair, one source block then one target
block, each read succeeding. -/
def pairsToReads : List (List Nat × List Nat) → List (Option (List Nat))
  | [] => []
  | p :: ps => some p.1 :: some p.2 :: pairsToReads ps

/-- Is an `Event.writeAck`. -/
def isAckEv : Event → Bool
  | Event.writeAck => true
  | _ => false

/-- Is an `Event.register`. -/
def isRegisterEv : Event → Bool
  | Event.register _ => true
  | _ => false

/-- Empty registry with the identifier counter at zero. -/
def st0 : MutState := ⟨0, fun _ => none⟩

/-- A permuter placeholder as it arrives (fields to be overwritten). -/
def pdEmpty : PermuterData := ⟨[], []⟩

/-- Concrete submission: one permuter, priority 2. -/
def exData1 : ConnectClientData := ⟨[pdEmpty], 2⟩

/-- Concrete read stream for one permuter: source `"a"`, target `[1]`. -/
def exReads1 : List (Option (List Nat)) := [some [0x61], some [0x01]]

/-- Concrete submission: two permuters, priority 2. -/
def exData2 : ConnectClientData := ⟨[pdEmpty, pdEmpty], 2⟩

/-- Concrete read stream for two permuters. -/
def exReads2 : List (Option (List Nat)) :=
  [some [0x61], some [0x01], some [0x62], some [0x02]]

/-- Concrete invalid submission: one permuter, priority 0. -/
def exDataP0 : ConnectClientData := ⟨[pdEmpty], 0⟩

/-! ### Basic lemmas about `idsFrom` -/

lemma idsFrom_length (c n : Nat) : (idsFrom c n).length = n := by
  induction n generalizing c with
  | zero => rfl
  | succ n ih => simp [idsFrom, ih]

lemma mem_idsFrom {k c n : Nat} : k ∈ idsFrom c n ↔ c ≤ k ∧ k < c + n := by
  induction n generalizing c with
  | zero => simp [idsFrom]
  | succ n ih =>
    simp only [idsFrom, List.mem_cons, ih]
    constructor
    · rintro (rfl | ⟨h1, h2⟩) <;> omega
    · rintro ⟨h1, h2⟩
      rcases Nat.eq_or_lt_of_le h1 with rfl | h
      · exact Or.inl rfl
      · exact Or.inr ⟨h, by omega⟩

lemma idsFrom_pairwise (c n : Nat) : (idsFrom c n).Pairwise (· < ·) := by
  induction n generalizing c with
  | zero => exact List.Pairwise.nil
  | succ n ih =>
    refine List.Pairwise.cons ?_ (ih (c + 1))
    intro k hk
    exact lt_of_lt_of_le (Nat.lt_succ_self c) (mem_idsFrom.1 hk).1

lemma idsFrom_nodup (c n : Nat) : (idsFrom c n).Nodup :=
  (idsFrom_pairwise c n).imp Nat.ne_of_lt

/-! ### Lemmas about `registerLoop` and `removeBatch` -/

lemma registerLoop_fst (l : List PermuterData) (pr ea : ℚ) (st : MutState) :
    (registerLoop l pr ea st).1 = idsFrom st.next_permuter_id l.length := by
  induction l generalizing st with
  | nil => rfl
  | cons pd rest ih => simp [registerLoop, idsFrom, ih]

lemma registerLoop_counter (l : List PermuterData) (pr ea : ℚ) (st : MutState) :
    (registerLoop l pr ea st).2.next_permuter_id =
      st.next_permuter_id + l.length := by
  induction l generalizing st with
  | nil => rfl
  | cons pd rest ih => simp [registerLoop, ih]; omega

lemma registerLoop_lookup_out (l : List PermuterData) (pr ea : ℚ) (st : MutState)
    (k : Nat) (hk : k ∉ (registerLoop l pr ea st).1) :
    (registerLoop l pr ea st).2.permuters k = st.permuters k := by
  induction l generalizing st with
  | nil => rfl
  | cons pd rest ih =>
    simp only [registerLoop, List.mem_cons, not_or] at hk ⊢
    rw [ih _ hk.2]
    simp [mapInsert, hk.1]

lemma registerLoop_lookup_mem (l : List PermuterData) (pr ea : ℚ) (st : MutState)
    (k : Nat) (hk : k ∈ (registerLoop l pr ea st).1) :
    ∃ pd ∈ l, (registerLoop l pr ea st).2.permuters k =
      some ⟨pd, [], [], false, pr, ea⟩ := by
  induction l generalizing st with
  | nil => simp [registerLoop] at hk
  | cons pd rest ih =>
    simp only [registerLoop, List.mem_cons] at hk
    rcases hk with rfl | hk
    · refine ⟨pd, List.mem_cons_self _ _, ?_⟩
      have hnot : st.next_permuter_id ∉ (registerLoop rest pr ea
          ⟨st.next_permuter_id + 1,
           mapInsert st.next_permuter_id ⟨pd, [], [], false, pr, ea⟩ st.permuters⟩).1 := by
        rw [registerLoop_fst]
        intro hmem
        have h2 := (mem_idsFrom.1 hmem).1
        simp only [MutState.next_permuter_id] at h2
        omega
      have := registerLoop_lookup_out rest pr ea
        ⟨st.next_permuter_id + 1,
         mapInsert st.next_permuter_id ⟨pd, [], [], false, pr, ea⟩ st.permuters⟩
        st.next_permuter_id hnot
      simp only [registerLoop]
      rw [this]
      simp [mapInsert]
    · obtain ⟨pd1, hpd1, hlook⟩ := ih _ hk
      exact ⟨pd1, List.mem_cons_of_mem _ hpd1, hlook⟩

lemma removeBatch_counter (ids : List Nat) (st : MutState) :
    (removeBatch ids st).next_permuter_id = st.next_permuter_id := by
  induction ids generalizing st with
  | nil => rfl
  | cons id ids ih => simp [removeBatch, ih]

lemma removeBatch_lookup (ids : List Nat) (st : MutState) (k : Nat) :
    (removeBatch ids st).permuters k =
      if k ∈ ids then none else st.permuters k := by
  induction ids generalizing st with
  | nil => simp [removeBatch]
  | cons id ids ih =>
    simp only [removeBatch, List.mem_cons]
    rw [ih]
    by_cases h1 : k ∈ ids
    · simp [h1]
    · by_cases h2 : k = id <;> simp [mapRemove, h1, h2]

/-! ### Lemmas about `fillLoop` -/

lemma fill_trace_read (ph : List PermuterData) (reads : List (Option (List Nat))) :
    ∀ ev ∈ (fillLoop ph reads).2.2, ev = Event.readBlock := by
  induction ph generalizing reads with
  | nil => intro ev h; simp [fillLoop] at h
  | cons pd rest ih =>
    intro ev h
    rcases reads with _ | ⟨_ | src, reads1⟩
    · simpa [fillLoop] using h
    · simpa [fillLoop] using h
    · simp only [fillLoop] at h
      by_cases hv : validUtf8 src
      · simp only [hv, if_true] at h
        rcases reads1 with _ | ⟨_ | tgt, reads2⟩
        · simpa using h
        · simpa using h
        · have htr := ih reads2
          dsimp only at h
          rcases hfl : fillLoop rest reads2 with ⟨r, reads3, tr⟩
          rw [hfl] at h htr
          cases r with
          | error e =>
            simp only [List.mem_cons] at h
            rcases h with rfl | rfl | h
            · rfl
            · rfl
            · exact htr ev h
          | ok filled =>
            simp only [List.mem_cons] at h
            rcases h with rfl | rfl | h
            · rfl
            · rfl
            · exact htr ev h
      · simp only [hv, if_false] at h
        simpa using h

lemma fill_ok_length (ph : List PermuterData) (reads : List (Option (List Nat)))
    (filled : List PermuterData)
    (h : (fillLoop ph reads).1 = Except.ok filled) : filled.length = ph.length := by
  induction ph generalizing reads filled with
  | nil =>
    simp only [fillLoop] at h
    cases h
    rfl
  | cons pd rest ih =>
    rcases reads with _ | ⟨_ | src, reads1⟩
    · simp [fillLoop] at h
    · simp [fillLoop] at h
    · simp only [fillLoop] at h
      by_cases hv : validUtf8 src
      · simp only [hv, if_true] at h
        rcases reads1 with _ | ⟨_ | tgt, reads2⟩
        · simp at h
        · simp at h
        · have hih := @ih reads2
          dsimp only at h
          rcases hfl : fillLoop rest reads2 with ⟨r, reads3, tr⟩
          rw [hfl] at h hih
          cases r with
          | error e => simp at h
          | ok filled1 =>
            simp only at h
            cases h
            simp [hih filled1 rfl]
      · simp [hv] at h

/-! ### Path lemmas for `handle_connect_client` -/

lemma handle_fill_error (data : ConnectClientData)
    (reads : List (Option (List Nat))) (ackR rRead rWrite : Except Err Unit)
    (st : MutState) (e : Err) (rds : List (Option (List Nat))) (tr : List Event)
    (h : fillLoop data.permuters reads = (Except.error e, rds, tr)) :
    handle_connect_client data reads ackR rRead rWrite st =
      ⟨Except.error e, st, [], none, tr⟩ := by
  unfold handle_connect_client
  rw [h]

lemma handle_ack_error (data : ConnectClientData)
    (reads : List (Option (List Nat))) (rRead rWrite : Except Err Unit)
    (st : MutState) (e : Err) (filled : List PermuterData)
    (rds : List (Option (List Nat))) (tr : List Event)
    (h : fillLoop data.permuters reads = (Except.ok filled, rds, tr)) :
    handle_connect_client data reads (Except.error e) rRead rWrite st =
      ⟨Except.error e, st, [], none, tr⟩ := by
  unfold handle_connect_client
  rw [h]

/-- The registration step applied by `handle_connect_client`: `registerLoop`
with the batch priority and `energy_add = N / priority`. -/
def regOf (data : ConnectClientData) (filled : List PermuterData)
    (st : MutState) : List Nat × MutState :=
  registerLoop filled data.priority ((data.permuters.length : ℚ) / data.priority) st

lemma handle_reached (data : ConnectClientData)
    (reads : List (Option (List Nat))) (rRead rWrite : Except Err Unit)
    (st : MutState) (filled : List PermuterData)
    (rds : List (Option (List Nat))) (tr : List Event)
    (h : fillLoop data.permuters reads = (Except.ok filled, rds, tr)) :
    handle_connect_client data reads (Except.ok ()) rRead rWrite st =
      ⟨tryJoin rRead rWrite,
       removeBatch (regOf data filled st).1 (regOf data filled st).2,
       (regOf data filled st).1,
       some (regOf data filled st).2,
       tr ++ [Event.writeAck, Event.register (regOf data filled st).1,
              Event.deregister (regOf data filled st).1]⟩ := by
  unfold handle_connect_client regOf
  rw [h]

lemma fill_eta (ph : List PermuterData) (reads : List (Option (List Nat))) :
    fillLoop ph reads =
      ((fillLoop ph reads).1, (fillLoop ph reads).2.1, (fillLoop ph reads).2.2) :=
  rfl

lemma fill_pairs_ok (ph : List PermuterData) (pairs : List (List Nat × List Nat))
    (rest : List (Option (List Nat)))
    (hlen : pairs.length = ph.length)
    (hval : ∀ p ∈ pairs, validUtf8 p.1) :
    fillLoop ph (pairsToReads pairs ++ rest) =
      (Except.ok ((ph.zip pairs).map fun q =>
        { q.1 with source := q.2.1, target_o_bin := q.2.2 }),
       rest, List.replicate (2 * ph.length) Event.readBlock) := by
  induction ph generalizing pairs with
  | nil =>
    rcases pairs with _ | ⟨p, ps⟩
    · simp [fillLoop, pairsToReads]
    · simp at hlen
  | cons pd rest1 ih =>
    rcases pairs with _ | ⟨p, ps⟩
    · simp at hlen
    · simp only [pairsToReads, List.cons_append, fillLoop]
      have hv := hval p (List.mem_cons_self p ps)
      rw [if_pos hv]
      simp only [List.append_eq, List.cons_append]
      have hrec := ih ps (by simpa using hlen)
        (fun q hq => hval q (List.mem_cons_of_mem _ hq))
      rw [hrec]
      simp only [List.zip_cons_cons, List.map_cons]
      have h2 : 2 * (pd :: rest1).length = (2 * rest1.length) + 1 + 1 := by
        simp [List.length_cons]; omega
      rw [h2, List.replicate_succ, List.replicate_succ]

lemma fill_pairs_utf8 (ph : List PermuterData) (pairs : List (List Nat × List Nat))
    (s : List Nat) (rest : List (Option (List Nat)))
    (hlt : pairs.length < ph.length)
    (hval : ∀ p ∈ pairs, validUtf8 p.1)
    (hbad : validUtf8 s = false) :
    (fillLoop ph (pairsToReads pairs ++ some s :: rest)).1 =
      Except.error Err.utf8 := by
  induction ph generalizing pairs with
  | nil => simp at hlt
  | cons pd rest1 ih =>
    rcases pairs with _ | ⟨p, ps⟩
    · simp only [pairsToReads, List.nil_append, fillLoop]
      rw [if_neg (by simp [hbad])]
    · simp only [pairsToReads, List.cons_append, fillLoop]
      have hv := hval p (List.mem_cons_self p ps)
      rw [if_pos hv]
      simp only [List.append_eq, List.cons_append]
      have hrec := ih ps (by simpa using hlt)
        (fun q hq => hval q (List.mem_cons_of_mem _ hq))
      rcases hfl : fillLoop rest1 (pairsToReads ps ++ some s :: rest) with ⟨r, rds, tr⟩
      rw [hfl] at hrec
      cases r with
      | error e =>
        simp only at hrec
        have he : e = Err.utf8 := by injection hrec
        subst he
        rfl
      | ok filled => simp at hrec

/-! ### Identifier bookkeeping for a handler run and for run sequences -/

lemma handle_ids_spec (data : ConnectClientData)
    (reads : List (Option (List Nat))) (ackR rRead rWrite : Except Err Unit)
    (st : MutState) :
    (handle_connect_client data reads ackR rRead rWrite st).perm_ids =
      idsFrom st.next_permuter_id
        (handle_connect_client data reads ackR rRead rWrite st).perm_ids.length ∧
    (handle_connect_client data reads ackR rRead rWrite st).state.next_permuter_id =
      st.next_permuter_id +
        (handle_connect_client data reads ackR rRead rWrite st).perm_ids.length := by
  rcases hfl : fillLoop data.permuters reads with ⟨r, rds, tr⟩
  cases r with
  | error e =>
    rw [handle_fill_error data reads ackR rRead rWrite st e rds tr hfl]
    simp [idsFrom]
  | ok filled =>
    cases ackR with
    | error e =>
      rw [handle_ack_error data reads rRead rWrite st e filled rds tr hfl]
      simp [idsFrom]
    | ok u =>
      cases u
      rw [handle_reached data reads rRead rWrite st filled rds tr hfl]
      constructor
      · simp [regOf, registerLoop_fst, idsFrom_length]
      · simp [removeBatch_counter, regOf, registerLoop_counter,
              registerLoop_fst, idsFrom_length]

lemma runSeq_spec (cs : List ConnInput) (st : MutState) :
    (runSeq st cs).1.Pairwise (· < ·) ∧
    st.next_permuter_id ≤ (runSeq st cs).2.next_permuter_id ∧
    ∀ i ∈ (runSeq st cs).1,
      st.next_permuter_id ≤ i ∧ i < (runSeq st cs).2.next_permuter_id := by
  induction cs generalizing st with
  | nil => simp [runSeq]
  | cons c cs ih =>
    simp only [runSeq]
    obtain ⟨hids, hctr⟩ :=
      handle_ids_spec c.data c.reads c.ackResult c.rRead c.rWrite st
    set out := handle_connect_client c.data c.reads c.ackResult c.rRead c.rWrite st
    obtain ⟨ihp, ihc, ihm⟩ := ih out.state
    refine ⟨?_, ?_, ?_⟩
    · rw [List.pairwise_append]
      refine ⟨?_, ihp, ?_⟩
      · rw [hids]; exact idsFrom_pairwise _ _
      · intro a ha b hb
        have hmem : a ∈ idsFrom st.next_permuter_id out.perm_ids.length := by
          rw [← hids]; exact ha
        have h1 := (mem_idsFrom.1 hmem).2
        have h2 := (ihm b hb).1
        omega
    · omega
    · intro i hi
      rcases List.mem_append.1 hi with hi | hi
      · have hmem : i ∈ idsFrom st.next_permuter_id out.perm_ids.length := by
          rw [← hids]; exact hi
        have h1 := mem_idsFrom.1 hmem
        omega
      · have := ihm i hi
        omega

/-! ### Claim theorems -/

/-- C1: for every valid submission of `N` permuters with priority `p > 0`
(all submission-phase reads succeed), after the registration step of
`handle_connect_client` the registry contains exactly `N` new `Permuter`
entries — the issued identifiers are `N` distinct fresh keys, each mapped to
an entry with `energy_add = N / p` and `priority = p`, all other keys
unchanged — and `next_permuter_id` has advanced by exactly `N`. -/
theorem c1_registration (data : ConnectClientData)
    (reads : List (Option (List Nat))) (rRead rWrite : Except Err Unit)
    (st : MutState) (filled : List PermuterData)
    (_hp : 0 < data.priority)
    (hfill : (fillLoop data.permuters reads).1 = Except.ok filled)
    (hfresh : ∀ k, st.next_permuter_id ≤ k → st.permuters k = none) :
    ∃ s, (handle_connect_client data reads (Except.ok ()) rRead rWrite st).regState
        = some s ∧
      (handle_connect_client data reads (Except.ok ()) rRead rWrite st).perm_ids.length
        = data.permuters.length ∧
      (handle_connect_client data reads (Except.ok ()) rRead rWrite st).perm_ids.Nodup ∧
      (∀ id ∈ (handle_connect_client data reads (Except.ok ()) rRead rWrite st).perm_ids,
        st.permuters id = none ∧
        ∃ p, s.permuters id = some p ∧
          p.energy_add = (data.permuters.length : ℚ) / data.priority ∧
          p.priority = data.priority) ∧
      (∀ k, k ∉ (handle_connect_client data reads (Except.ok ()) rRead rWrite st).perm_ids →
        s.permuters k = st.permuters k) ∧
      s.next_permuter_id = st.next_permuter_id + data.permuters.length := by
  have heta := fill_eta data.permuters reads
  rw [hfill] at heta
  have hN := fill_ok_length data.permuters reads filled hfill
  rw [handle_reached data reads rRead rWrite st filled _ _ heta]
  refine ⟨(regOf data filled st).2, rfl, ?_, ?_, ?_, ?_, ?_⟩
  · simp [regOf, registerLoop_fst, idsFrom_length, hN]
  · simp only [regOf]
    rw [registerLoop_fst]
    exact idsFrom_nodup _ _
  · intro id hid
    have hid1 : id ∈ (regOf data filled st).1 := by simpa using hid
    have hid2 : id ∈ idsFrom st.next_permuter_id filled.length := by
      rw [regOf, registerLoop_fst] at hid1
      exact hid1
    refine ⟨hfresh id (mem_idsFrom.1 hid2).1, ?_⟩
    obtain ⟨pd, hpd, hlook⟩ := registerLoop_lookup_mem filled data.priority
      ((data.permuters.length : ℚ) / data.priority) st id hid1
    exact ⟨_, hlook, rfl, rfl⟩
  · intro k hk
    have hk1 : k ∉ (regOf data filled st).1 := by simpa using hk
    exact registerLoop_lookup_out filled data.priority
      ((data.permuters.length : ℚ) / data.priority) st k hk1
  · simp [regOf, registerLoop_counter, hN]

/-- C1 witness: two permuters at priority 2, reads all succeeding, from the
empty registry; `energy_add = 2 / 2` and the counter advanced by 2. -/
theorem c1_registration_witness :
    (0 : ℚ) < exData2.priority ∧
    (∃ s, (handle_connect_client exData2 exReads2 (Except.ok ()) (Except.ok ())
        (Except.ok ()) st0).regState = some s ∧
      (handle_connect_client exData2 exReads2 (Except.ok ()) (Except.ok ())
        (Except.ok ()) st0).perm_ids.length = exData2.permuters.length ∧
      (handle_connect_client exData2 exReads2 (Except.ok ()) (Except.ok ())
        (Except.ok ()) st0).perm_ids.Nodup ∧
      (∀ id ∈ (handle_connect_client exData2 exReads2 (Except.ok ()) (Except.ok ())
          (Except.ok ()) st0).perm_ids,
        st0.permuters id = none ∧
        ∃ p, s.permuters id = some p ∧
          p.energy_add = (exData2.permuters.length : ℚ) / exData2.priority ∧
          p.priority = exData2.priority) ∧
      (∀ k, k ∉ (handle_connect_client exData2 exReads2 (Except.ok ()) (Except.ok ())
          (Except.ok ()) st0).perm_ids → s.permuters k = st0.permuters k) ∧
      s.next_permuter_id = st0.next_permuter_id + exData2.permuters.length) :=
  ⟨by decide,
   c1_registration exData2 exReads2 (Except.ok ()) (Except.ok ()) st0
     [⟨[0x61], [0x01]⟩, ⟨[0x62], [0x02]⟩] (by decide) rfl (fun _ _ => rfl)⟩

/-- C2: every execution of `handle_connect_client` that reaches the
registration step deregisters every identifier it registered before the
handler returns, on the success path and on every error path alike (the
trace ends with the deregistration, which precedes the `r?` propagation of
the first error), and a run in which both protocol halves end without error
returns success. -/
theorem c2_cleanup_before_return (data : ConnectClientData)
    (reads : List (Option (List Nat))) (rRead rWrite : Except Err Unit)
    (st : MutState) (filled : List PermuterData)
    (hfill : (fillLoop data.permuters reads).1 = Except.ok filled) :
    (∀ id ∈ (handle_connect_client data reads (Except.ok ()) rRead rWrite st).perm_ids,
      (handle_connect_client data reads (Except.ok ()) rRead rWrite st).state.permuters id
        = none) ∧
    (rRead = Except.ok () → rWrite = Except.ok () →
      (handle_connect_client data reads (Except.ok ()) rRead rWrite st).result
        = Except.ok ()) ∧
    (∀ e, (handle_connect_client data reads (Except.ok ()) rRead rWrite st).result
        = Except.error e →
      ∀ id ∈ (handle_connect_client data reads (Except.ok ()) rRead rWrite st).perm_ids,
        (handle_connect_client data reads (Except.ok ()) rRead rWrite st).state.permuters id
          = none) ∧
    ∃ t1, (handle_connect_client data reads (Except.ok ()) rRead rWrite st).trace =
      t1 ++ [Event.deregister
        (handle_connect_client data reads (Except.ok ()) rRead rWrite st).perm_ids] := by
  have heta := fill_eta data.permuters reads
  rw [hfill] at heta
  rw [handle_reached data reads rRead rWrite st filled _ _ heta]
  refine ⟨?_, ?_, ?_, ?_⟩
  · intro id hid
    have hid1 : id ∈ (regOf data filled st).1 := by simpa using hid
    simp [removeBatch_lookup, hid1]
  · intro h1 h2
    subst h1
    subst h2
    rfl
  · intro e he id hid
    have hid1 : id ∈ (regOf data filled st).1 := by simpa using hid
    simp [removeBatch_lookup, hid1]
  · exact ⟨(fillLoop data.permuters reads).2.2 ++
      [Event.writeAck, Event.register (regOf data filled st).1], by simp⟩

/-- C2 witness: one permuter, reads succeeding, the read half failing with a
protocol error; the registered identifier is gone from the final registry
and the error is surfaced only after the deregistration. -/
theorem c2_cleanup_before_return_witness :
    (∀ id ∈ (handle_connect_client exData1 exReads1 (Except.ok ())
        (Except.error (Err.proto 7)) (Except.ok ()) st0).perm_ids,
      (handle_connect_client exData1 exReads1 (Except.ok ())
        (Except.error (Err.proto 7)) (Except.ok ()) st0).state.permuters id = none) ∧
    ((Except.error (Err.proto 7) : Except Err Unit) = Except.ok () →
      (Except.ok () : Except Err Unit) = Except.ok () →
      (handle_connect_client exData1 exReads1 (Except.ok ())
        (Except.error (Err.proto 7)) (Except.ok ()) st0).result = Except.ok ()) ∧
    (∀ e, (handle_connect_client exData1 exReads1 (Except.ok ())
        (Except.error (Err.proto 7)) (Except.ok ()) st0).result = Except.error e →
      ∀ id ∈ (handle_connect_client exData1 exReads1 (Except.ok ())
          (Except.error (Err.proto 7)) (Except.ok ()) st0).perm_ids,
        (handle_connect_client exData1 exReads1 (Except.ok ())
          (Except.error (Err.proto 7)) (Except.ok ()) st0).state.permuters id = none) ∧
    ∃ t1, (handle_connect_client exData1 exReads1 (Except.ok ())
        (Except.error (Err.proto 7)) (Except.ok ()) st0).trace =
      t1 ++ [Event.deregister (handle_connect_client exData1 exReads1 (Except.ok ())
        (Except.error (Err.proto 7)) (Except.ok ()) st0).perm_ids] :=
  c2_cleanup_before_return exData1 exReads1 (Except.error (Err.proto 7))
    (Except.ok ()) st0 [⟨[0x61], [0x01]⟩] rfl

/-- C3 counterexample: in a concrete successful run (one permuter, priority
2, both reads succeeding), the acknowledgment write occurs at trace index 2
while the registration occurs at trace index 3 — the acknowledgment is sent
before registration, refuting the claimed ordering. -/
theorem c3_counterexample :
    ((handle_connect_client exData1 exReads1 (Except.ok ()) (Except.ok ())
      (Except.ok ()) st0).trace.findIdx? isAckEv = some 2) ∧
    ((handle_connect_client exData1 exReads1 (Except.ok ()) (Except.ok ())
      (Except.ok ()) st0).trace.findIdx? isRegisterEv = some 3) := by
  constructor <;> rfl

/-- C3 amended: in every execution of `handle_connect_client` in which a
registration event occurs, the acknowledgment is written immediately before
it — the trace is a block of reads, then the acknowledgment, then the
registration (then the deregistration): the acknowledgment happens before
registration, not after. -/
theorem c3_ack_before_registration (data : ConnectClientData)
    (reads : List (Option (List Nat))) (ackR rRead rWrite : Except Err Unit)
    (st : MutState) (ids : List Nat)
    (hreg : Event.register ids ∈
      (handle_connect_client data reads ackR rRead rWrite st).trace) :
    ∃ t1, (handle_connect_client data reads ackR rRead rWrite st).trace =
        t1 ++ [Event.writeAck, Event.register ids, Event.deregister ids] ∧
      ∀ ev ∈ t1, ev = Event.readBlock := by
  have htr := fill_trace_read data.permuters reads
  rcases hfl : fillLoop data.permuters reads with ⟨r, rds, tr⟩
  rw [hfl] at htr
  cases r with
  | error e =>
    rw [handle_fill_error data reads ackR rRead rWrite st e rds tr hfl] at hreg
    exact absurd (htr _ hreg) (by simp)
  | ok filled =>
    cases ackR with
    | error e =>
      rw [handle_ack_error data reads rRead rWrite st e filled rds tr hfl] at hreg
      exact absurd (htr _ hreg) (by simp)
    | ok u =>
      cases u
      rw [handle_reached data reads rRead rWrite st filled rds tr hfl] at hreg ⊢
      have hids : ids = (regOf data filled st).1 := by
        simp only at hreg
        rcases List.mem_append.1 hreg with h | h
        · exact absurd (htr _ h) (by simp)
        · simp at h
          exact h
      subst hids
      exact ⟨tr, by simp, htr⟩

/-- C3 amended witness: the concrete run of the counterexample satisfies the
amended ordering — reads, then acknowledgment, then registration. -/
theorem c3_ack_before_registration_witness :
    ∃ t1, (handle_connect_client exData1 exReads1 (Except.ok ()) (Except.ok ())
        (Except.ok ()) st0).trace =
      t1 ++ [Event.writeAck, Event.register [0], Event.deregister [0]] ∧
      ∀ ev ∈ t1, ev = Event.readBlock :=
  c3_ack_before_registration exData1 exReads1 (Except.ok ()) (Except.ok ())
    (Except.ok ()) st0 [0] (by decide)

/-- C4: the code contains no priority validation (only the comment `TODO:
validate that priority is sane`): at the concrete failing input — one
permuter, priority 0, both reads succeeding — the handler registers the
permuter (identifier 0 inserted, counter advanced to 1) and returns
success, instead of rejecting the submission before any registry
mutation. -/
theorem c4_priority_not_validated :
    (handle_connect_client exDataP0 exReads1 (Except.ok ()) (Except.ok ())
      (Except.ok ()) st0).result = Except.ok () ∧
    (handle_connect_client exDataP0 exReads1 (Except.ok ()) (Except.ok ())
      (Except.ok ()) st0).perm_ids = [0] ∧
    ((handle_connect_client exDataP0 exReads1 (Except.ok ()) (Except.ok ())
      (Except.ok ()) st0).regState.map fun s => (s.permuters 0).isSome) = some true ∧
    ((handle_connect_client exDataP0 exReads1 (Except.ok ()) (Except.ok ())
      (Except.ok ()) st0).regState.map fun s => s.next_permuter_id) = some 1 := by
  refine ⟨rfl, rfl, rfl, rfl⟩

/-- C5: if a compressed-block read fails (channel closed or decompression
failure) during the submission phase, `handle_connect_client` returns that
error with no registration at all: the shared state is unchanged (no entry
inserted, `next_permuter_id` untouched), no identifier was issued, the
registration step was never reached, and the trace holds only read
events. -/
theorem c5_read_failure_no_registration (data : ConnectClientData)
    (reads : List (Option (List Nat))) (ackR rRead rWrite : Except Err Unit)
    (st : MutState)
    (herr : (fillLoop data.permuters reads).1 = Except.error Err.channel) :
    (handle_connect_client data reads ackR rRead rWrite st).result
      = Except.error Err.channel ∧
    (handle_connect_client data reads ackR rRead rWrite st).state = st ∧
    (handle_connect_client data reads ackR rRead rWrite st).perm_ids = [] ∧
    (handle_connect_client data reads ackR rRead rWrite st).regState = none ∧
    ∀ ev ∈ (handle_connect_client data reads ackR rRead rWrite st).trace,
      ev = Event.readBlock := by
  have htr := fill_trace_read data.permuters reads
  have heta := fill_eta data.permuters reads
  rw [herr] at heta
  rw [handle_fill_error data reads ackR rRead rWrite st Err.channel _ _ heta]
  exact ⟨rfl, rfl, rfl, rfl, htr⟩

/-- C5 witness: the channel closing at the very first read leaves the empty
registry untouched and surfaces the channel error. -/
theorem c5_read_failure_no_registration_witness :
    (handle_connect_client exData1 [none] (Except.ok ()) (Except.ok ())
      (Except.ok ()) st0).result = Except.error Err.channel ∧
    (handle_connect_client exData1 [none] (Except.ok ()) (Except.ok ())
      (Except.ok ()) st0).state = st0 ∧
    (handle_connect_client exData1 [none] (Except.ok ()) (Except.ok ())
      (Except.ok ()) st0).perm_ids = [] ∧
    (handle_connect_client exData1 [none] (Except.ok ()) (Except.ok ())
      (Except.ok ()) st0).regState = none ∧
    ∀ ev ∈ (handle_connect_client exData1 [none] (Except.ok ()) (Except.ok ())
      (Except.ok ()) st0).trace, ev = Event.readBlock :=
  c5_read_failure_no_registration exData1 [none] (Except.ok ()) (Except.ok ())
    (Except.ok ()) st0 rfl

/-- C6: identifier allocation is strictly increasing and identifiers are
never reused: across any sequence of connections handled one after another
(registrations interleaved with the removals each handler performs), every
identifier issued is strictly greater than every identifier issued before
it, so all identifiers ever issued are distinct. -/
theorem c6_identifier_uniqueness (st : MutState) (cs : List ConnInput) :
    (runSeq st cs).1.Pairwise (· < ·) ∧ (runSeq st cs).1.Nodup :=
  ⟨(runSeq_spec cs st).1, (runSeq_spec cs st).1.imp Nat.ne_of_lt⟩

/-- C7: `handle_connect_client` mutates the registry exactly twice — its
final state is the bulk removal of its own identifiers applied to the state
produced by its bulk registration (when registration was reached, and the
initial state otherwise) — and entries at identifiers not registered by
this connection are unchanged, both after the registration step and in the
final state. -/
theorem c7_exactly_two_mutations (data : ConnectClientData)
    (reads : List (Option (List Nat))) (ackR rRead rWrite : Except Err Unit)
    (st : MutState) :
    (∀ k, k ∉ (handle_connect_client data reads ackR rRead rWrite st).perm_ids →
      (handle_connect_client data reads ackR rRead rWrite st).state.permuters k
        = st.permuters k) ∧
    (∀ s, (handle_connect_client data reads ackR rRead rWrite st).regState = some s →
      (handle_connect_client data reads ackR rRead rWrite st).state =
        removeBatch (handle_connect_client data reads ackR rRead rWrite st).perm_ids s ∧
      ∀ k, k ∉ (handle_connect_client data reads ackR rRead rWrite st).perm_ids →
        s.permuters k = st.permuters k) ∧
    ((handle_connect_client data reads ackR rRead rWrite st).regState = none →
      (handle_connect_client data reads ackR rRead rWrite st).state = st) := by
  rcases hfl : fillLoop data.permuters reads with ⟨r, rds, tr⟩
  cases r with
  | error e =>
    rw [handle_fill_error data reads ackR rRead rWrite st e rds tr hfl]
    exact ⟨fun k _ => rfl, fun s hs => absurd hs (by simp), fun _ => rfl⟩
  | ok filled =>
    cases ackR with
    | error e =>
      rw [handle_ack_error data reads rRead rWrite st e filled rds tr hfl]
      exact ⟨fun k _ => rfl, fun s hs => absurd hs (by simp), fun _ => rfl⟩
    | ok u =>
      cases u
      rw [handle_reached data reads rRead rWrite st filled rds tr hfl]
      refine ⟨?_, ?_, ?_⟩
      · intro k hk
        have hk1 : k ∉ (regOf data filled st).1 := by simpa using hk
        have h1 := registerLoop_lookup_out filled data.priority
          ((data.permuters.length : ℚ) / data.priority) st k hk1
        show (removeBatch (regOf data filled st).1 (regOf data filled st).2).permuters k
          = st.permuters k
        rw [removeBatch_lookup, if_neg hk1]
        exact h1
      · intro s hs
        have hs1 : (regOf data filled st).2 = s := by
          simpa using hs
        subst hs1
        refine ⟨rfl, ?_⟩
        intro k hk
        have hk1 : k ∉ (regOf data filled st).1 := by simpa using hk
        exact registerLoop_lookup_out filled data.priority
          ((data.permuters.length : ℚ) / data.priority) st k hk1
      · intro h
        exact absurd h (by simp)

/-- C7 witness: a concrete run touching identifier 0 leaves the (absent)
entry at identifier 99 unchanged. -/
theorem c7_exactly_two_mutations_witness :
    (handle_connect_client exData1 exReads1 (Except.ok ()) (Except.ok ())
      (Except.ok ()) st0).state.permuters 99 = st0.permuters 99 :=
  (c7_exactly_two_mutations exData1 exReads1 (Except.ok ()) (Except.ok ())
    (Except.ok ()) st0).1 99 (by decide)

/-- C8: the submission phase of `handle_connect_client` performs exactly two
compressed-block reads per placeholder, in submission order: with the read
stream holding the `2 N` blocks pairwise, each placeholder is filled with
the first block of its pair as `source` and the second as `target_o_bin`,
the stream beyond the `2 N` blocks is untouched, and the whole run performs
exactly `2 N` block reads. -/
theorem c8_two_reads_per_placeholder (data : ConnectClientData)
    (pairs : List (List Nat × List Nat)) (rest : List (Option (List Nat)))
    (ackR rRead rWrite : Except Err Unit) (st : MutState)
    (hlen : pairs.length = data.permuters.length)
    (hval : ∀ p ∈ pairs, validUtf8 p.1) :
    fillLoop data.permuters (pairsToReads pairs ++ rest) =
      (Except.ok ((data.permuters.zip pairs).map fun q =>
        { q.1 with source := q.2.1, target_o_bin := q.2.2 }),
       rest, List.replicate (2 * data.permuters.length) Event.readBlock) ∧
    (handle_connect_client data (pairsToReads pairs ++ rest)
      ackR rRead rWrite st).trace.count Event.readBlock
        = 2 * data.permuters.length := by
  have h1 := fill_pairs_ok data.permuters pairs rest hlen hval
  refine ⟨h1, ?_⟩
  cases ackR with
  | error e =>
    rw [handle_ack_error data _ rRead rWrite st e _ _ _ h1]
    simp [List.count_replicate_self]
  | ok u =>
    cases u
    rw [handle_reached data _ rRead rWrite st _ _ _ h1]
    have h0 : List.count Event.readBlock
        [Event.writeAck,
         Event.register (regOf data ((data.permuters.zip pairs).map fun q =>
           { q.1 with source := q.2.1, target_o_bin := q.2.2 }) st).1,
         Event.deregister (regOf data ((data.permuters.zip pairs).map fun q =>
           { q.1 with source := q.2.1, target_o_bin := q.2.2 }) st).1] = 0 := by
      rw [List.count_eq_zero]
      simp
    show (List.replicate (2 * data.permuters.length) Event.readBlock ++
      [Event.writeAck,
       Event.register (regOf data ((data.permuters.zip pairs).map fun q =>
         { q.1 with source := q.2.1, target_o_bin := q.2.2 }) st).1,
       Event.deregister (regOf data ((data.permuters.zip pairs).map fun q =>
         { q.1 with source := q.2.1, target_o_bin := q.2.2 }) st).1]).count
        Event.readBlock = 2 * data.permuters.length
    rw [List.count_append, h0, List.count_replicate_self, Nat.add_zero]

/-- C8 witness: two placeholders, four blocks read in order, sources and
targets stored pairwise, exactly four reads performed. -/
theorem c8_two_reads_per_placeholder_witness :
    (fillLoop exData2.permuters
      (pairsToReads [([0x61], [0x01]), ([0x62], [0x02])] ++ []) =
      (Except.ok ((exData2.permuters.zip [([0x61], [0x01]), ([0x62], [0x02])]).map
        fun q => { q.1 with source := q.2.1, target_o_bin := q.2.2 }),
       [], List.replicate (2 * exData2.permuters.length) Event.readBlock)) ∧
    (handle_connect_client exData2
      (pairsToReads [([0x61], [0x01]), ([0x62], [0x02])] ++ [])
      (Except.ok ()) (Except.ok ()) (Except.ok ()) st0).trace.count Event.readBlock
        = 2 * exData2.permuters.length :=
  c8_two_reads_per_placeholder exData2 [([0x61], [0x01]), ([0x62], [0x02])] []
    (Except.ok ()) (Except.ok ()) (Except.ok ()) st0 (by decide) (by decide)

/-- C9: if a source block read during the submission phase is not valid
UTF-8 (after any number of successfully decoded earlier pairs), the handler
returns the UTF-8 error before writing the acknowledgment and before any
registry mutation: the state is unchanged, no identifier was issued, the
registration step was never reached, and no acknowledgment event is in the
trace. -/
theorem c9_invalid_utf8_no_ack (data : ConnectClientData)
    (pairs : List (List Nat × List Nat)) (s : List Nat)
    (rest : List (Option (List Nat))) (ackR rRead rWrite : Except Err Unit)
    (st : MutState)
    (hlt : pairs.length < data.permuters.length)
    (hval : ∀ p ∈ pairs, validUtf8 p.1)
    (hbad : validUtf8 s = false) :
    (handle_connect_client data (pairsToReads pairs ++ some s :: rest)
      ackR rRead rWrite st).result = Except.error Err.utf8 ∧
    (handle_connect_client data (pairsToReads pairs ++ some s :: rest)
      ackR rRead rWrite st).state = st ∧
    (handle_connect_client data (pairsToReads pairs ++ some s :: rest)
      ackR rRead rWrite st).perm_ids = [] ∧
    (handle_connect_client data (pairsToReads pairs ++ some s :: rest)
      ackR rRead rWrite st).regState = none ∧
    Event.writeAck ∉ (handle_connect_client data (pairsToReads pairs ++ some s :: rest)
      ackR rRead rWrite st).trace := by
  have herr := fill_pairs_utf8 data.permuters pairs s rest hlt hval hbad
  have htr := fill_trace_read data.permuters (pairsToReads pairs ++ some s :: rest)
  have heta := fill_eta data.permuters (pairsToReads pairs ++ some s :: rest)
  rw [herr] at heta
  rw [handle_fill_error data _ ackR rRead rWrite st Err.utf8 _ _ heta]
  refine ⟨rfl, rfl, rfl, rfl, ?_⟩
  intro hmem
  have h1 := htr _ hmem
  simp at h1

/-- C9 witness: the very first source block being the invalid byte `0xFF`
aborts the run with the UTF-8 error, no acknowledgment, no registration. -/
theorem c9_invalid_utf8_no_ack_witness :
    ((handle_connect_client exData1 (pairsToReads [] ++ some [0xFF] :: [])
      (Except.ok ()) (Except.ok ()) (Except.ok ()) st0).result
        = Except.error Err.utf8) ∧
    (handle_connect_client exData1 (pairsToReads [] ++ some [0xFF] :: [])
      (Except.ok ()) (Except.ok ()) (Except.ok ()) st0).state = st0 ∧
    (handle_connect_client exData1 (pairsToReads [] ++ some [0xFF] :: [])
      (Except.ok ()) (Except.ok ()) (Except.ok ()) st0).perm_ids = [] ∧
    (handle_connect_client exData1 (pairsToReads [] ++ some [0xFF] :: [])
      (Except.ok ()) (Except.ok ()) (Except.ok ()) st0).regState = none ∧
    Event.writeAck ∉ (handle_connect_client exData1 (pairsToReads [] ++ some [0xFF] :: [])
      (Except.ok ()) (Except.ok ()) (Except.ok ()) st0).trace :=
  c9_invalid_utf8_no_ack exData1 [] [0xFF] [] (Except.ok ()) (Except.ok ())
    (Except.ok ()) st0 (by decide) (fun p hp => absurd hp (by simp)) (by decide)

/-- C10: every `Permuter` inserted by the registration step of
`handle_connect_client` starts with an empty `work_queue`, an empty
`result_queue`, and `stale = false`. -/
theorem c10_fresh_permuter_fields (data : ConnectClientData)
    (reads : List (Option (List Nat))) (ackR rRead rWrite : Except Err Unit)
    (st : MutState) (s : MutState)
    (hreg : (handle_connect_client data reads ackR rRead rWrite st).regState = some s) :
    ∀ id ∈ (handle_connect_client data reads ackR rRead rWrite st).perm_ids,
      ∃ p, s.permuters id = some p ∧
        p.work_queue = [] ∧ p.result_queue = [] ∧ p.stale = false := by
  rcases hfl : fillLoop data.permuters reads with ⟨r, rds, tr⟩
  cases r with
  | error e =>
    rw [handle_fill_error data reads ackR rRead rWrite st e rds tr hfl] at hreg
    exact absurd hreg (by simp)
  | ok filled =>
    cases ackR with
    | error e =>
      rw [handle_ack_error data reads rRead rWrite st e filled rds tr hfl] at hreg
      exact absurd hreg (by simp)
    | ok u =>
      cases u
      rw [handle_reached data reads rRead rWrite st filled rds tr hfl] at hreg ⊢
      have hs : (regOf data filled st).2 = s := by simpa using hreg
      subst hs
      intro id hid
      have hid1 : id ∈ (regOf data filled st).1 := by simpa using hid
      obtain ⟨pd, hpd, hlook⟩ := registerLoop_lookup_mem filled data.priority
        ((data.permuters.length : ℚ) / data.priority) st id hid1
      exact ⟨_, hlook, rfl, rfl, rfl⟩

/-- C10 witness: in a concrete run the permuter registered at identifier 0
has empty queues and is not stale. -/
theorem c10_fresh_permuter_fields_witness :
    ∃ p, (regOf exData1 [⟨[0x61], [0x01]⟩] st0).2.permuters 0 = some p ∧
      p.work_queue = [] ∧ p.result_queue = [] ∧ p.stale = false :=
  c10_fresh_permuter_fields exData1 exReads1 (Except.ok ()) (Except.ok ())
    (Except.ok ()) st0 (regOf exData1 [⟨[0x61], [0x01]⟩] st0).2 rfl 0 (by decide)

end PahServer
